import Mathlib

/-!
Verification of the plist XML construction automaton
(Sources/plist/XMLParser.cpp).

The development is a shallow embedding of the element-driven construction
state machine.  Tree nodes are stored in a heap (a list of node records
indexed by allocation order), corresponding to the C++ code where nodes
are heap objects handled through pointers; a pointer is modelled as a
`Nat` index and a possibly-null pointer as `Option Nat`.  Each handler of
the automaton is translated function-by-function from the source; the
collaborators that are not part of the core (the SAX driver, the node
classes, the C++ standard library conversions) are modelled from their
documented interface and are marked as such in their doc comments.
-/

/-- Value node, the tagged variant behind the Object pointers of the
source.  Container children are possibly-null pointers to other nodes
(heap indexes), matching the pointer-based ownership of the C++ code. -/
inductive Node where
  | arrayNode (items : List (Option Nat))
  | dictNode (entries : List (String × Option Nat))
  | stringNode (v : String)
  | integerNode (v : Int)
  | realNode (mantissa : Int) (exp10 : Int)
  | booleanNode (v : Bool)
  | nullNode
  | dataNode (bytes : List Nat)
  | dateNode (v : String)
deriving Repr, DecidableEq

/-- Pending-key slot of a parser frame: the key text, whether a complete
key string is awaiting a value (valid), and whether the automaton is
currently inside a key element (active). -/
structure KeyState where
  value : String
  valid : Bool
  active : Bool
deriving Repr, DecidableEq

/-- Parser frame (struct State of the source): the current node pointer
and the pending-key slot. -/
structure Frame where
  current : Option Nat
  key : KeyState
deriving Repr, DecidableEq

/-- Undefined-behaviour outcomes of a run: dereferencing a null pointer,
an exception escaping a handler, and calling back() on an empty stack. -/
inductive Crash where
  | nullDeref
  | uncaughtException
  | emptyBack
deriving Repr, DecidableEq

/-- Whole automaton state: the node heap (allocation order = index), the
live frame (_state), the frame stack (_stack, top at the head), the root
handle (_root), the character-data buffer (_cdata), the diagnostics that
were delivered through the error callback, the stop request flag, and the
list of node ids on which release() was invoked directly. -/
structure RunState where
  heap : List Node
  frame : Frame
  stack : List Frame
  root : Option Nat
  cdata : String
  errors : List String
  stopped : Bool
  releases : List Nat
deriving Repr, DecidableEq

/-- Structural event delivered by the tokenizer, per the driver contract.
Attributes are accepted but semantically ignored by the core, so they are
omitted here. -/
inductive XMLEvent where
  | startElement (name : String) (depth : Nat)
  | characterData (text : String) (depth : Nat)
  | endElement (name : String) (depth : Nat)
deriving Repr, DecidableEq

/-- Models isspace of the C standard library in the default locale:
space, horizontal tab, line feed, vertical tab, form feed, carriage
return. -/
def cppIsSpace (c : Char) : Bool :=
  c = ' ' ∨ c = Char.ofNat 9 ∨ c = Char.ofNat 10 ∨ c = Char.ofNat 11 ∨
  c = Char.ofNat 12 ∨ c = Char.ofNat 13

/-- Numeric value of a list of decimal digit characters. -/
def digitsVal (ds : List Char) : Nat :=
  ds.foldl (fun a c => a * 10 + (c.toNat - 48)) 0

/-- Leading sign of a character list: returns the sign factor and the
remaining characters. -/
def readSign : List Char → Int × List Char
  | '-' :: t => (-1, t)
  | '+' :: t => (1, t)
  | t => (1, t)

/-- Models std::stoi (base 10): skip leading whitespace, optional sign,
then at least one decimal digit (longest prefix); further characters are
ignored.  Returns none exactly when the call would throw
(std::invalid_argument when no digits are found, std::out_of_range when
the value does not fit in int); the automaton has no handler for either
exception. -/
def cppStoi (s : String) : Option Int :=
  let cs := s.toList.dropWhile cppIsSpace
  let sr := readSign cs
  let ds := sr.2.takeWhile Char.isDigit
  if ds.isEmpty then none
  else
    let v : Int := sr.1 * ((digitsVal ds : Nat) : Int)
    if v < -2147483648 ∨ 2147483647 < v then none else some v

/-- Models std::stod on decimal inputs: skip leading whitespace, optional
sign, digits with an optional fraction part and an optional exponent
part; at least one mantissa digit is required, otherwise the call throws
(returns none here).  The successfully parsed value is kept exactly as a
decimal mantissa and a power-of-ten exponent; binary rounding of the C++
double is abstracted away, since no theorem below depends on the stored
numeric value, only on whether the conversion throws. -/
def cppStod (s : String) : Option (Int × Int) :=
  let cs := s.toList.dropWhile cppIsSpace
  let sr := readSign cs
  let intDs := sr.2.takeWhile Char.isDigit
  let cs2 := sr.2.dropWhile Char.isDigit
  let fracDs := match cs2 with
    | '.' :: t => t.takeWhile Char.isDigit
    | _ => []
  let cs3 := match cs2 with
    | '.' :: t => t.dropWhile Char.isDigit
    | t => t
  if intDs.isEmpty ∧ fracDs.isEmpty then none
  else
    let mant : Int := sr.1 * ((digitsVal (intDs ++ fracDs) : Nat) : Int)
    let eAdj : Int := match cs3 with
      | c :: t =>
        if c = 'e' ∨ c = 'E' then
          let esr := readSign t
          let eds := esr.2.takeWhile Char.isDigit
          if eds.isEmpty then 0 else esr.1 * ((digitsVal eds : Nat) : Int)
        else 0
      | [] => 0
    some (mant, eAdj - (fracDs.length : Int))

/-- Value of one base64 alphabet character. -/
def base64CharVal (c : Char) : Option Nat :=
  if 'A' ≤ c ∧ c ≤ 'Z' then some (c.toNat - 65)
  else if 'a' ≤ c ∧ c ≤ 'z' then some (c.toNat - 97 + 26)
  else if '0' ≤ c ∧ c ≤ '9' then some (c.toNat - 48 + 52)
  else if c = '+' then some 62
  else if c = '/' then some 63
  else none

/-- Decodes groups of four base64 characters into bytes, allowing padding
in the final group; any other shape is invalid. -/
def base64Groups : List Char → Option (List Nat)
  | [] => some []
  | a :: b :: c :: d :: rest =>
    match base64CharVal a, base64CharVal b with
    | some va, some vb =>
      if c = '=' ∧ d = '=' ∧ rest = [] then
        some [va * 4 + vb / 16]
      else
        match base64CharVal c with
        | some vc =>
          if d = '=' ∧ rest = [] then
            some [va * 4 + vb / 16, (vb % 16) * 16 + vc / 4]
          else
            match base64CharVal d, base64Groups rest with
            | some vd, some bs =>
              some ([va * 4 + vb / 16, (vb % 16) * 16 + vc / 4,
                     (vc % 4) * 64 + vd] ++ bs)
            | _, _ => none
        | none => none
    | _, _ => none
  | _ => none

/-- Modelled from the spec: the base64 decoding performed by
Data::setBase64Value (the Data node class is not part of the core
source).  Whitespace is skipped, then the text must be whole groups of
four alphabet characters with optional final padding; the spec calls any
other text a coercion error (none here). -/
def base64Decode (s : String) : Option (List Nat) :=
  base64Groups (s.toList.filter (fun c => !cppIsSpace c))

/-- Allocates a node on the heap (operator new); the fresh id is the
current heap length. -/
def allocNode (s : RunState) (nd : Node) : Nat × RunState :=
  (s.heap.length, { s with heap := s.heap ++ [nd] })

/-- Replaces the node stored at a heap index (a mutation of the pointed
object). -/
def heapSet (h : List Node) (i : Nat) (nd : Node) : List Node :=
  h.set i nd

/-- Records one diagnostic delivered through the error callback.
Modelled from the spec: error records a diagnostic and does not itself
halt parsing. -/
def errF (s : RunState) (msg : String) : RunState :=
  { s with errors := s.errors ++ [msg] }

/-- Requests that the driver deliver no further events (stop).  Modelled
from the spec: after a stop request the driver proceeds directly to the
end-of-document callback with success set to false. -/
def stopF (s : RunState) : RunState :=
  { s with stopped := true }

/-- Records a release() call on a node pointer.  Saved frames never hold
a null current pointer, so the none branch is unreachable in the code and
is a no-op here. -/
def releaseOpt (s : RunState) : Option Nat → RunState
  | some i => { s with releases := s.releases ++ [i] }
  | none => s

/-- Node pointed to by the current pointer of the live frame, if any. -/
def currentNode (s : RunState) : Option Node :=
  match s.frame.current with
  | some i => s.heap.get? i
  | none => none

/-- Tests whether a node is an Array. -/
def isArrayNode : Node → Bool
  | .arrayNode _ => true
  | _ => false

/-- Tests whether a node is a Dictionary. -/
def isDictNode : Node → Bool
  | .dictNode _ => true
  | _ => false

/-- Models CastTo applied to the current node: a checked downcast that
yields the pointer when the pointed node satisfies the type test and null
otherwise (the node classes are a tagged variant per the data model of
the spec; CastTo of a null pointer is null). -/
def castCur (s : RunState) (p : Node → Bool) : Option Nat :=
  match s.frame.current with
  | some i =>
    match s.heap.get? i with
    | some nd => if p nd then some i else none
    | none => none
  | none => none

/-- Translation of XMLParser::inArray. -/
def inArray (s : RunState) : Bool :=
  (castCur s isArrayNode).isSome

/-- Translation of XMLParser::inDictionary. -/
def inDictionary (s : RunState) : Bool :=
  (castCur s isDictNode).isSome

/-- Translation of XMLParser::inContainer; depth() of the driver is the
depth of the element being handled. -/
def inContainer (s : RunState) (depth : Nat) : Bool :=
  depth = 1 ∨ inDictionary s ∨ inArray s

/-- Translation of XMLParser::isExpectingKey. -/
def isExpectingKey (s : RunState) : Bool :=
  inDictionary s ∧ !s.frame.key.valid

/-- Translation of XMLParser::isExpectingCDATA: the current node is an
Integer, Real or String leaf, or the automaton is inside a dictionary
with an active key. -/
def isExpectingCDATA (s : RunState) : Bool :=
  (castCur s (fun nd => match nd with | .integerNode _ => true | _ => false)).isSome ∨
  (castCur s (fun nd => match nd with | .realNode _ _ => true | _ => false)).isSome ∨
  (castCur s (fun nd => match nd with | .stringNode _ => true | _ => false)).isSome ∨
  (inDictionary s ∧ s.frame.key.active)

/-- Translation of XMLParser::push: save the live frame when a current
node exists, install the object as the new current node with cleared
key flags (the key text is not cleared), and record the object as the
root when no root exists yet. -/
def push (s : RunState) (objId : Nat) : RunState :=
  let s1 := if s.frame.current ≠ none then { s with stack := s.frame :: s.stack } else s
  let s2 := { s1 with frame := { current := some objId,
                                 key := { s1.frame.key with valid := false, active := false } } }
  if s2.root = none then { s2 with root := some objId } else s2

/-- Modelled from the spec: Dictionary::set keeps keys unique, so an
existing entry for the key is replaced and a new key is appended. -/
def dictSet (es : List (String × Option Nat)) (k : String) (v : Option Nat) :
    List (String × Option Nat) :=
  if es.any (fun e => e.1 = k) then
    es.map (fun e => if e.1 = k then (k, v) else e)
  else es ++ [(k, v)]

/-- Attachment step of XMLParser::pop, after the parent frame has been
restored: append to an Array parent; for a Dictionary parent, attach
under the pending key only when the automaton is not expecting a key,
and in that case clear the key flags; any other parent is untouched. -/
def attach (s1 : RunState) (old : Frame) : RunState :=
  match s1.frame.current, currentNode s1 with
  | some a, some (.arrayNode items) =>
    { s1 with heap := heapSet s1.heap a (.arrayNode (items ++ [old.current])) }
  | some d, some (.dictNode es) =>
    if !(isExpectingKey s1) then
      { s1 with
        heap := heapSet s1.heap d (.dictNode (dictSet es s1.frame.key.value old.current)),
        frame := { s1.frame with key := { s1.frame.key with valid := false, active := false } } }
    else s1
  | _, _ => s1

/-- Translation of XMLParser::pop: report stack underflow when the stack
is empty and there is no current node (returning without clearing the
buffer); do nothing structural when the current node is the root;
otherwise restore the top frame (back() on an empty stack is undefined
behaviour, the emptyBack crash) and attach the completed node; finally
clear the character-data buffer. -/
def pop (s : RunState) : Except (Crash × RunState) RunState :=
  if s.stack = [] ∧ s.frame.current = none then
    .ok (errF s "stack underflow")
  else if s.frame.current = s.root then
    .ok { s with cdata := "" }
  else
    match s.stack with
    | [] => .error (.emptyBack, s)
    | f :: rest =>
      let old := s.frame
      let s1 := { s with frame := f, stack := rest }
      .ok { attach s1 old with cdata := "" }

/-- Allocates a node and pushes it (the push(X::New()) pattern of the
begin handlers). -/
def pushNew (s : RunState) (nd : Node) : RunState :=
  let a := allocNode s nd
  push a.2 a.1

/-- Translation of XMLParser::beginArray. -/
def beginArray (s : RunState) : Bool × RunState :=
  (true, pushNew s (.arrayNode []))

/-- Translation of XMLParser::beginDictionary: push a fresh dictionary,
then clear the key flags again. -/
def beginDictionary (s : RunState) : Bool × RunState :=
  let s1 := pushNew s (.dictNode [])
  (true, { s1 with frame := { s1.frame with
             key := { s1.frame.key with valid := false, active := false } } })

/-- Translation of XMLParser::beginString. -/
def beginString (s : RunState) : Bool × RunState :=
  (true, { pushNew s (.stringNode "") with cdata := "" })

/-- Translation of XMLParser::beginInteger. -/
def beginInteger (s : RunState) : Bool × RunState :=
  (true, { pushNew s (.integerNode 0) with cdata := "" })

/-- Translation of XMLParser::beginReal. -/
def beginReal (s : RunState) : Bool × RunState :=
  (true, { pushNew s (.realNode 0 0) with cdata := "" })

/-- Translation of XMLParser::beginBoolean. -/
def beginBoolean (s : RunState) (value : Bool) : Bool × RunState :=
  (true, pushNew s (.booleanNode value))

/-- Translation of XMLParser::beginNull. -/
def beginNull (s : RunState) : Bool × RunState :=
  (true, pushNew s (.nullNode))

/-- Translation of XMLParser::beginData. -/
def beginData (s : RunState) : Bool × RunState :=
  (true, { pushNew s (.dataNode []) with cdata := "" })

/-- Translation of XMLParser::beginDate. -/
def beginDate (s : RunState) : Bool × RunState :=
  (true, { pushNew s (.dateNode "") with cdata := "" })

/-- Translation of XMLParser::beginKey: mark the key active, clear the
buffer; no node is allocated and no frame is pushed. -/
def beginKey (s : RunState) : Bool × RunState :=
  let f := { s.frame with key := { s.frame.key with valid := false, active := true } }
  (true, { s with frame := f, cdata := "" })

/-- Translation of XMLParser::endKey: the accumulated buffer becomes the
key text, the key becomes valid and inactive, and the buffer is
cleared. -/
def endKey (s : RunState) : Except (Crash × RunState) (Bool × RunState) :=
  let f := { s.frame with key := { value := s.cdata, valid := true, active := false } }
  .ok (true, { s with frame := f, cdata := "" })

/-- Name dispatch shared by every value element (the tail of
XMLParser::beginObject). -/
def beginObjectDispatch (s : RunState) (name : String) : Bool × RunState :=
  if name = "array" then beginArray s
  else if name = "dict" then beginDictionary s
  else if name = "string" then beginString s
  else if name = "integer" then beginInteger s
  else if name = "real" then beginReal s
  else if name = "true" then beginBoolean s true
  else if name = "false" then beginBoolean s false
  else if name = "null" then beginNull s
  else if name = "data" then beginData s
  else if name = "date" then beginDate s
  else (false, errF s ("unexpected element " ++ name))

/-- Container-admission check and dispatch (the part of
XMLParser::beginObject reached after the dictionary-specific checks fall
through). -/
def beginObjectRest (s : RunState) (name : String) (depth : Nat) : Bool × RunState :=
  if !(inContainer s depth) then
    (false, errF s ("unexpected " ++ name ++ " element in a non-container element."))
  else beginObjectDispatch s name

/-- Translation of XMLParser::beginObject: inside a dictionary a key
element is admitted only when a key is expected and any other element is
admitted only when a key is not expected; then the container-admission
check and the name dispatch run. -/
def beginObject (s : RunState) (name : String) (depth : Nat) : Bool × RunState :=
  if inDictionary s then
    if name = "key" then
      if !(isExpectingKey s) then
        (false, errF s "unexpected key when expecting value in dictionary definition")
      else beginKey s
    else if isExpectingKey s then
      (false, errF s ("unexpected element " ++ name ++
                      " when a key was expected in dictionary definition"))
    else beginObjectRest s name depth
  else beginObjectRest s name depth

/-- Translation of XMLParser::endArray. -/
def endArray (s : RunState) : Except (Crash × RunState) (Bool × RunState) := do
  let s1 ← pop s
  .ok (true, s1)

/-- Translation of XMLParser::endDictionary. -/
def endDictionary (s : RunState) : Except (Crash × RunState) (Bool × RunState) := do
  let s1 ← pop s
  .ok (true, s1)

/-- Translation of XMLParser::endString: store the buffer into the
current node through a checked String downcast (a null result is
dereferenced), then pop. -/
def endString (s : RunState) : Except (Crash × RunState) (Bool × RunState) :=
  match castCur s (fun nd => match nd with | .stringNode _ => true | _ => false) with
  | none => .error (.nullDeref, s)
  | some i => do
    let s1 := { s with heap := heapSet s.heap i (.stringNode s.cdata) }
    let s2 ← pop s1
    .ok (true, s2)

/-- Translation of XMLParser::endInteger: the buffer is converted with
std::stoi (whose exceptions escape the handler), the result is stored
through a checked Integer downcast (a null result is dereferenced), then
pop. -/
def endInteger (s : RunState) : Except (Crash × RunState) (Bool × RunState) :=
  match cppStoi s.cdata with
  | none => .error (.uncaughtException, s)
  | some v =>
    match castCur s (fun nd => match nd with | .integerNode _ => true | _ => false) with
    | none => .error (.nullDeref, s)
    | some i => do
      let s1 := { s with heap := heapSet s.heap i (.integerNode v) }
      let s2 ← pop s1
      .ok (true, s2)

/-- Translation of XMLParser::endReal.  The source line is
CastTo-Integer of the current node, then setValue of the std::stod
result (XMLParser.cpp line 353): the downcast tests for Integer, not
Real, so on a Real current node it yields null and the setValue call
dereferences a null pointer.  When std::stod throws, the exception
escapes first; in the impossible case that the current node is an
Integer, the double is truncated into it. -/
def endReal (s : RunState) : Except (Crash × RunState) (Bool × RunState) :=
  match cppStod s.cdata with
  | none => .error (.uncaughtException, s)
  | some v =>
    match castCur s (fun nd => match nd with | .integerNode _ => true | _ => false) with
    | none => .error (.nullDeref, s)
    | some i => do
      let tr : Int := if 0 ≤ v.2 then v.1 * (10 : Int) ^ v.2.toNat
                      else if v.1 < 0 then -((((-v.1).toNat / (10 : Nat) ^ (-v.2).toNat : Nat) : Int))
                      else (((v.1.toNat / (10 : Nat) ^ (-v.2).toNat : Nat) : Int))
      let s1 := { s with heap := heapSet s.heap i (.integerNode tr) }
      let s2 ← pop s1
      .ok (true, s2)

/-- Translation of XMLParser::endBoolean. -/
def endBoolean (s : RunState) : Except (Crash × RunState) (Bool × RunState) := do
  let s1 ← pop s
  .ok (true, s1)

/-- Translation of XMLParser::endNull. -/
def endNull (s : RunState) : Except (Crash × RunState) (Bool × RunState) := do
  let s1 ← pop s
  .ok (true, s1)

/-- Translation of XMLParser::endData: the buffer is decoded as base64
into the current node through a checked Data downcast (a null result is
dereferenced), then pop.  Data::setBase64Value is modelled from the spec
as storing the decoded bytes, an undecodable text leaving the node
empty. -/
def endData (s : RunState) : Except (Crash × RunState) (Bool × RunState) :=
  match castCur s (fun nd => match nd with | .dataNode _ => true | _ => false) with
  | none => .error (.nullDeref, s)
  | some i => do
    let s1 := { s with heap := heapSet s.heap i (.dataNode ((base64Decode s.cdata).getD [])) }
    let s2 ← pop s1
    .ok (true, s2)

/-- Translation of XMLParser::endDate: the buffer is stored as the date
text through a checked Date downcast (a null result is dereferenced),
then pop. -/
def endDate (s : RunState) : Except (Crash × RunState) (Bool × RunState) :=
  match castCur s (fun nd => match nd with | .dateNode _ => true | _ => false) with
  | none => .error (.nullDeref, s)
  | some i => do
    let s1 := { s with heap := heapSet s.heap i (.dateNode s.cdata) }
    let s2 ← pop s1
    .ok (true, s2)

/-- Translation of XMLParser::endObject: a plist close always succeeds,
the known element names dispatch to their end handlers, and any other
name is an error. -/
def endObject (s : RunState) (name : String) : Except (Crash × RunState) (Bool × RunState) :=
  if name = "plist" then .ok (true, s)
  else if name = "key" then endKey s
  else if name = "array" then endArray s
  else if name = "dict" then endDictionary s
  else if name = "string" then endString s
  else if name = "integer" then endInteger s
  else if name = "real" then endReal s
  else if name = "true" ∨ name = "false" then endBoolean s
  else if name = "null" then endNull s
  else if name = "data" then endData s
  else if name = "date" then endDate s
  else .ok (false, errF s ("unexpected element " ++ name))

/-- Translation of XMLParser::onBeginParse: clear the root, the current
pointer and the key flags (the stack and the buffer are not touched
here). -/
def onBeginParse (s : RunState) : RunState :=
  let f : Frame := { current := none,
                     key := { s.frame.key with valid := false, active := false } }
  { s with root := none, frame := f }

/-- Rollback release of one saved frame during a failed parse: the saved
current node is released unless it equals the live current pointer or
the root (avoiding a double release). -/
def rollbackFrame (cur root : Option Nat) (acc : RunState) (f : Frame) : RunState :=
  if f.current ≠ cur ∧ f.current ≠ root then releaseOpt acc f.current else acc

/-- Translation of XMLParser::onEndParse: on failure release the current
node (unless null or the root), release every saved frame current
(unless it equals the live current or the root), clear the stack, then
release the root and clear the root handle; in every case clear the
current pointer, the key flags and the buffer.  The saved frames are
walked oldest first, as the C++ range-for over the vector does. -/
def onEndParse (s0 : RunState) (success : Bool) : RunState :=
  let s :=
    if success then s0
    else
      let s1 := if s0.frame.current ≠ none ∧ s0.frame.current ≠ s0.root
                then releaseOpt s0 s0.frame.current else s0
      let s2 := (s1.stack.reverse).foldl (rollbackFrame s1.frame.current s1.root) s1
      let s3 := { s2 with stack := [] }
      if s3.root ≠ none then { releaseOpt s3 s3.root with root := none } else s3
  let f : Frame := { current := none,
                     key := { s.frame.key with valid := false, active := false } }
  { s with frame := f, cdata := "" }

/-- Translation of XMLParser::onStartElement.  The first statement of
the source handler allocates a Dictionary (XMLParser.cpp line 74) that
is never used or freed; the allocation is reproduced here.  At depth 0
only the plist wrapper is accepted; at depth 1 with an existing root an
error is reported and the handler returns; otherwise beginObject runs
and a stop is requested on failure. -/
def onStartElement (s0 : RunState) (name : String) (depth : Nat) :
    Except (Crash × RunState) RunState :=
  let s := (allocNode s0 (.dictNode [])).2
  if depth = 0 then
    .ok (if name ≠ "plist" then errF s ("expecting plist, found " ++ name) else s)
  else if depth = 1 ∧ s.root ≠ none then
    .ok (errF s ("unexpected element " ++ name ++ " after root element"))
  else
    let r := beginObject s name depth
    .ok (if r.1 then r.2 else stopF r.2)

/-- Translation of XMLParser::onEndElement: endObject runs and a stop is
requested on failure. -/
def onEndElement (s : RunState) (name : String) :
    Except (Crash × RunState) RunState := do
  let r ← endObject s name
  .ok (if r.1 then r.2 else stopF r.2)

/-- Translation of XMLParser::onCharacterData: when character data is
expected the text is appended to the buffer; otherwise every non-space
character reports an unexpected-cdata error and requests a stop (the
loop of the source does not break, so one error per offending
character). -/
def onCharacterData (s : RunState) (text : String) :
    Except (Crash × RunState) RunState :=
  if !(isExpectingCDATA s) then
    .ok (text.toList.foldl
      (fun acc c => if !(cppIsSpace c) then stopF (errF acc "unexpected cdata") else acc) s)
  else
    .ok { s with cdata := s.cdata ++ text }

/-- Modelled from the spec: the driver delivers one structural event to
the automaton, except that after a stop request no further event is
delivered. -/
def deliver (s : RunState) (ev : XMLEvent) : Except (Crash × RunState) RunState :=
  if s.stopped then .ok s
  else
    match ev with
    | .startElement n d => onStartElement s n d
    | .characterData t _ => onCharacterData s t
    | .endElement n _ => onEndElement s n

/-- Delivers a list of events in document order. -/
def runEvents (s : RunState) : List XMLEvent → Except (Crash × RunState) RunState
  | [] => .ok s
  | ev :: evs =>
    match deliver s ev with
    | .ok s1 => runEvents s1 evs
    | .error e => .error e

/-- Fresh per-call automaton state of a parser instance whose persistent
root member holds root0. -/
def initRun (root0 : Option Nat) : RunState :=
  { heap := [], frame := { current := none, key := { value := "", valid := false, active := false } },
    stack := [], root := root0, cdata := "", errors := [], stopped := false, releases := [] }

/-- Translation of XMLParser::parse on top of the driver, which is
modelled from the spec: when the instance already holds a root the call
returns null at once without running the driver; otherwise onBeginParse
runs, the events of the document are delivered, and onEndParse runs with
success exactly when no stop was requested (the event list stands for a
document the tokenizer itself accepts); the root is returned on success
and null on failure. -/
def xmlParse (root0 : Option Nat) (events : List XMLEvent) :
    Except (Crash × RunState) (Option Nat × RunState) :=
  if root0.isSome then .ok (none, initRun root0)
  else
    match runEvents (onBeginParse (initRun root0)) events with
    | .error e => .error e
    | .ok s1 =>
      let success := !s1.stopped
      let s2 := onEndParse s1 success
      .ok ((if success then s2.root else none), s2)

/-- Result returned to the caller, when the run does not crash. -/
def resultOf (r : Except (Crash × RunState) (Option Nat × RunState)) : Option (Option Nat) :=
  match r with
  | .ok (v, _) => some v
  | .error _ => none

/-- Final automaton state of a run that does not crash. -/
def finalStateOf (r : Except (Crash × RunState) (Option Nat × RunState)) : Option RunState :=
  match r with
  | .ok (_, s) => some s
  | .error _ => none

/-- Diagnostics delivered during a run that does not crash. -/
def errorsOf (r : Except (Crash × RunState) (Option Nat × RunState)) : Option (List String) :=
  (finalStateOf r).map RunState.errors

/-- Crash kind of a run, if the run crashed. -/
def crashKind (r : Except (Crash × RunState) (Option Nat × RunState)) : Option Crash :=
  match r with
  | .error (c, _) => some c
  | .ok _ => none

/-- Diagnostics delivered before the crash of a crashing run. -/
def crashErrors (r : Except (Crash × RunState) (Option Nat × RunState)) : Option (List String) :=
  match r with
  | .error (_, s) => some s.errors
  | .ok _ => none

/-- Child pointers owned by a node. -/
def childIds : Node → List Nat
  | .arrayNode items => items.filterMap id
  | .dictNode es => es.filterMap (fun e => e.2)
  | _ => []

/-- Ids destroyed when a node is destroyed: the node itself and,
recursively, its owned children (fuel-bounded walk; owned children are
always fresher than their parent, so heap length is enough fuel). -/
def reachAux (h : List Node) : Nat → Nat → List Nat
  | 0, i => [i]
  | fuel + 1, i =>
    i :: (match h.get? i with
          | some nd => (childIds nd).flatMap (reachAux h fuel)
          | none => [])

/-- Ids destroyed by all the release() calls of a run: every released
node together with the nodes it transitively owns. -/
def destroyedIds (s : RunState) : List Nat :=
  s.releases.flatMap (reachAux s.heap s.heap.length)

/-- Event stream of the document plist real 3.14. -/
def realDocEvents : List XMLEvent :=
  [.startElement "plist" 0, .startElement "real" 1,
   .characterData "3.14" 1, .endElement "real" 1, .endElement "plist" 0]

/-- Event stream of the document plist integer notanumber. -/
def badIntegerDocEvents : List XMLEvent :=
  [.startElement "plist" 0, .startElement "integer" 1,
   .characterData "notanumber" 1, .endElement "integer" 1, .endElement "plist" 0]

/-- Event stream of the document plist data aGk= (valid base64 for two
bytes). -/
def dataDocEvents : List XMLEvent :=
  [.startElement "plist" 0, .startElement "data" 1,
   .characterData "aGk=" 1, .endElement "data" 1, .endElement "plist" 0]

/-- Event stream of the document plist foo, an unknown element. -/
def fooDocEvents : List XMLEvent :=
  [.startElement "plist" 0, .startElement "foo" 1,
   .endElement "foo" 1, .endElement "plist" 0]

/-- Event stream of the document with two depth-1 elements,
plist dict dict. -/
def twoRootsDocEvents : List XMLEvent :=
  [.startElement "plist" 0, .startElement "dict" 1, .endElement "dict" 1,
   .startElement "dict" 1, .endElement "dict" 1, .endElement "plist" 0]

/-- Event stream of the document with two key elements back to back,
plist dict key x key y. -/
def twoKeysDocEvents : List XMLEvent :=
  [.startElement "plist" 0, .startElement "dict" 1,
   .startElement "key" 2, .characterData "x" 2, .endElement "key" 2,
   .startElement "key" 2, .characterData "y" 2, .endElement "key" 2,
   .endElement "dict" 1, .endElement "plist" 0]

/-- Event stream of the document with a value immediately after a value,
plist dict key k true false. -/
def valueValueDocEvents : List XMLEvent :=
  [.startElement "plist" 0, .startElement "dict" 1,
   .startElement "key" 2, .characterData "k" 2, .endElement "key" 2,
   .startElement "true" 2, .endElement "true" 2,
   .startElement "false" 2, .endElement "false" 2,
   .endElement "dict" 1, .endElement "plist" 0]

/-- Event stream of the well-formed document plist true. -/
def trueDocEvents : List XMLEvent :=
  [.startElement "plist" 0, .startElement "true" 1,
   .endElement "true" 1, .endElement "plist" 0]

/-- C1: the claim states that when a real element closes, the buffered
text is parsed as a floating-point value and stored into the just-opened
real leaf node, after which the node is popped.  The code instead
downcasts the current node to Integer (XMLParser.cpp line 353); on the
Real node that beginReal pushed the downcast yields null and the setValue
call dereferences a null pointer, so the value is never stored and the
pop is never reached: the run of the document plist real 3.14 crashes
with a null dereference after delivering no diagnostics, even though the
text parses as a floating-point value. -/
theorem c1_endReal_null_deref :
    crashKind (xmlParse none realDocEvents) = some .nullDeref ∧
    crashErrors (xmlParse none realDocEvents) = some [] ∧
    (cppStod "3.14").isSome = true := by
  refine ⟨rfl, rfl, rfl⟩

/-- C2: the claim states that every malformed parse returns null, delivers
at least one error, and leaks no node.  On the unknown-element document
plist foo the parse does return null with one diagnostic, but the two
Dictionary objects allocated by the first statement of onStartElement
(XMLParser.cpp line 74, one per open event) are never referenced and
never released: the heap holds two allocations while no release reaches
any of them, a leak. -/
theorem c2_stray_dictionary_leak :
    resultOf (xmlParse none fooDocEvents) = some none ∧
    errorsOf (xmlParse none fooDocEvents) = some ["unexpected element foo"] ∧
    (finalStateOf (xmlParse none fooDocEvents)).map (fun s => s.heap.length) = some 2 ∧
    (finalStateOf (xmlParse none fooDocEvents)).map destroyedIds = some [] := by
  refine ⟨rfl, rfl, rfl, rfl⟩

/-- C3: the claim states that a document whose single value element is
data with valid base64 text parses into a Data leaf, the text being
buffered rather than rejected.  The text aGk= is valid base64 (it decodes
to the two bytes 104 and 105), but isExpectingCDATA does not admit a Data
current node, so each of its four characters triggers an
unexpected-cdata error with a stop request and the parse returns null. -/
theorem c3_data_cdata_rejected :
    base64Decode "aGk=" = some [104, 105] ∧
    resultOf (xmlParse none dataDocEvents) = some none ∧
    errorsOf (xmlParse none dataDocEvents) =
      some ["unexpected cdata", "unexpected cdata", "unexpected cdata", "unexpected cdata"] := by
  refine ⟨rfl, rfl, rfl⟩

/-- C5: the claim states that closing an integer element whose text is
not a valid integer reports a coercion error through the error callback
and fails the parse with a null result.  The code calls std::stoi with no
handler for its exceptions: on the document plist integer notanumber the
conversion throws, the exception escapes the handler, and no diagnostic
at all has been delivered at that point. -/
theorem c5_integer_coercion_uncaught :
    cppStoi "notanumber" = none ∧
    crashKind (xmlParse none badIntegerDocEvents) = some .uncaughtException ∧
    crashErrors (xmlParse none badIntegerDocEvents) = some [] := by
  refine ⟨rfl, rfl, rfl⟩

/-- C6: the claim states that an open event at depth 1 with an existing
root reports an error, creates no node, and aborts the parse so that it
returns null.  On the document plist dict dict the error is delivered,
but the handler returns without requesting a stop, so the remaining
events complete successfully and parse returns the first root (node 2,
non-null); moreover the rejected element still allocated a stray
Dictionary (the heap holds four nodes: two strays for plist and the
first dict, the root dict, and the stray of the rejected element). -/
theorem c6_afterRoot_not_aborted :
    resultOf (xmlParse none twoRootsDocEvents) = some (some 2) ∧
    errorsOf (xmlParse none twoRootsDocEvents) =
      some ["unexpected element dict after root element"] ∧
    (finalStateOf (xmlParse none twoRootsDocEvents)).map (fun s => s.heap.length) = some 4 := by
  refine ⟨rfl, rfl, rfl⟩

/-- C7: inside a dictionary strict key and value alternation is enforced:
opening a key element while a key is already valid fails with the
unexpected-key error, and opening a non-key element while a key is
expected fails with the key-expected error; on the two witness documents
(two key elements back to back; a value immediately after a value) the
failing handler requests a stop and the parse returns null with exactly
that diagnostic. -/
theorem c7_dict_alternation :
    (∀ (s : RunState) (name : String) (depth : Nat),
        inDictionary s = true → s.frame.key.valid = true → name = "key" →
        (beginObject s name depth).1 = false ∧
        (beginObject s name depth).2.errors =
          s.errors ++ ["unexpected key when expecting value in dictionary definition"]) ∧
    (∀ (s : RunState) (name : String) (depth : Nat),
        inDictionary s = true → s.frame.key.valid = false → name ≠ "key" →
        (beginObject s name depth).1 = false ∧
        (beginObject s name depth).2.errors =
          s.errors ++ ["unexpected element " ++ name ++
                       " when a key was expected in dictionary definition"]) ∧
    resultOf (xmlParse none twoKeysDocEvents) = some none ∧
    errorsOf (xmlParse none twoKeysDocEvents) =
      some ["unexpected key when expecting value in dictionary definition"] ∧
    resultOf (xmlParse none valueValueDocEvents) = some none ∧
    errorsOf (xmlParse none valueValueDocEvents) =
      some ["unexpected element false when a key was expected in dictionary definition"] := by
  refine ⟨?_, ?_, rfl, rfl, rfl, rfl⟩
  · intro s name depth h1 h2 h3
    simp [beginObject, isExpectingKey, h1, h2, h3, errF]
  · intro s name depth h1 h2 h3
    simp [beginObject, isExpectingKey, h1, h2, h3, errF]

/-- Dictionary state whose pending key is valid, used to instantiate the
alternation theorem. -/
def dictWithValidKey : RunState :=
  { heap := [.dictNode []],
    frame := { current := some 0, key := { value := "k", valid := true, active := false } },
    stack := [], root := some 0, cdata := "", errors := [], stopped := false, releases := [] }

/-- Dictionary state whose pending key is not valid, used to instantiate
the alternation theorem. -/
def dictExpectingKey : RunState :=
  { heap := [.dictNode []],
    frame := { current := some 0, key := { value := "", valid := false, active := false } },
    stack := [], root := some 0, cdata := "", errors := [], stopped := false, releases := [] }

/-- Witness for the alternation theorem: both rejection branches fire on
concrete dictionary states. -/
theorem c7_dict_alternation_witness :
    (beginObject dictWithValidKey "key" 2).1 = false ∧
    (beginObject dictExpectingKey "integer" 2).1 = false := by
  refine ⟨(c7_dict_alternation.1 dictWithValidKey "key" 2 (by decide) (by decide) rfl).1,
          (c7_dict_alternation.2.1 dictExpectingKey "integer" 2 (by decide) (by decide)
            (by decide)).1⟩

/-- C8: push records the pushed node as the root exactly when no root
exists yet, whatever the state (and hence whatever the type of the node),
and a push on a state whose root is already set leaves the root
untouched; so the first node ever pushed becomes the root and no later
push reassigns it. -/
theorem c8_rootHandle_set_once (s : RunState) (n : Nat) :
    (push { s with root := none } n).root = some n ∧
    (∀ r : Nat, (push { s with root := some r } n).root = some r) := by
  constructor
  · simp only [push]
    split <;> simp
  · intro r
    simp only [push]
    split <;> simp

/-- C9: a parse call on an instance whose root member is already set
returns null at once with the automaton state untouched (no event is
processed, no diagnostic is delivered); on a fresh instance the same
entry point parses the document plist true to a root node, which then
remains recorded on the instance. -/
theorem c9_reentry_guard :
    (∀ (r : Nat) (events : List XMLEvent),
        xmlParse (some r) events = .ok (none, initRun (some r))) ∧
    resultOf (xmlParse none trueDocEvents) = some (some 2) ∧
    (finalStateOf (xmlParse none trueDocEvents)).map RunState.root = some (some 2) := by
  exact ⟨fun r events => rfl, rfl, rfl⟩

/-- Formalization of the condition of claim C4: the next pop will restore
a parent frame (the current node is not the root and a saved frame
exists) whose saved current node is a dictionary and whose pending key is
not valid. -/
def popRestoresDictWithoutValidKey (s : RunState) : Bool :=
  match s.stack with
  | [] => false
  | f :: _ =>
    decide (s.frame.current ≠ s.root) &&
    (match f.current with
     | some d => (match s.heap.get? d with | some (.dictNode _) => true | _ => false)
     | none => false) &&
    !f.key.valid

/-- Automaton state about to pop a completed boolean node into a
dictionary parent whose pending key is not valid. -/
def c4State : RunState :=
  { heap := [.dictNode [], .booleanNode true],
    frame := { current := some 1, key := { value := "", valid := false, active := false } },
    stack := [{ current := some 0, key := { value := "", valid := false, active := false } }],
    root := some 0, cdata := "", errors := [], stopped := false, releases := [] }

/-- C4 counterexample: the claim states that a pop restoring a dictionary
parent without a valid pending key reports an internal error rather than
completing silently.  On a state satisfying exactly that condition, pop
completes normally, delivers no diagnostic at all, and leaves the
dictionary unchanged (the completed node is silently dropped). -/
theorem c4_counterexample_silent_pop :
    popRestoresDictWithoutValidKey c4State = true ∧
    (pop c4State).isOk = true ∧
    ((pop c4State).toOption.map RunState.errors) = some [] ∧
    ((pop c4State).toOption.map (fun s => s.heap.get? 0)) = some (some (.dictNode [])) := by
  refine ⟨rfl, rfl, rfl, rfl⟩

/-- C4 amended: when pop restores a dictionary parent, an invalid pending
key makes the attachment silently skipped — the state is exactly the
restored frame with the buffer cleared, so no error is reported and the
completed node is dropped; a valid pending key makes the completed node
attached under that key and the key flags cleared. -/
theorem c4_amended_pop_dictionary
    (s : RunState) (f : Frame) (rest : List Frame) (d : Nat)
    (es : List (String × Option Nat))
    (h1 : s.stack = f :: rest) (h2 : s.frame.current ≠ s.root)
    (h3 : f.current = some d) (h4 : s.heap.get? d = some (.dictNode es)) :
    (f.key.valid = false →
       pop s = .ok { s with frame := f, stack := rest, cdata := "" }) ∧
    (f.key.valid = true →
       pop s = .ok { s with
         heap := heapSet s.heap d (.dictNode (dictSet es f.key.value s.frame.current)),
         frame := { f with key := { f.key with valid := false, active := false } },
         stack := rest, cdata := "" }) := by
  have hg : ¬(s.stack = [] ∧ s.frame.current = none) := by simp [h1]
  have h4g : s.heap[d]? = some (.dictNode es) := by
    rw [← List.get?_eq_getElem?]; exact h4
  constructor
  · intro hv
    simp only [pop, if_neg hg, if_neg h2, h1]
    simp [attach, currentNode, castCur, isExpectingKey, inDictionary, isDictNode,
          h3, h4, h4g, hv]
  · intro hv
    simp only [pop, if_neg hg, if_neg h2, h1]
    simp [attach, currentNode, castCur, isExpectingKey, inDictionary, isDictNode,
          h3, h4, h4g, hv]

/-- Saved dictionary frame with the valid pending key k. -/
def c4ValidFrame : Frame :=
  { current := some 0, key := { value := "k", valid := true, active := false } }

/-- Automaton state about to pop a completed boolean node into a
dictionary parent with the valid pending key k. -/
def c4ValidState : RunState :=
  { heap := [.dictNode [], .booleanNode true],
    frame := { current := some 1, key := { value := "", valid := false, active := false } },
    stack := [c4ValidFrame],
    root := some 0, cdata := "", errors := [], stopped := false, releases := [] }

/-- Witness for the amended pop theorem: on the concrete valid-key state
the completed node is attached under the key and the key flags are
cleared. -/
theorem c4_amended_pop_dictionary_witness :
    pop c4ValidState = .ok { c4ValidState with
      heap := heapSet c4ValidState.heap 0
        (.dictNode (dictSet [] c4ValidFrame.key.value c4ValidState.frame.current)),
      frame := { c4ValidFrame with
        key := { c4ValidFrame.key with valid := false, active := false } },
      stack := [], cdata := "" } :=
  (c4_amended_pop_dictionary c4ValidState c4ValidFrame [] 0 []
    rfl (by decide) rfl rfl).2 rfl

/-- Stack operation of the automaton, the two primitives the claim about
underflow quantifies over. -/
inductive StackOp where
  | pushOp (n : Nat)
  | popOp
deriving Repr, DecidableEq

/-- Applies a sequence of push and pop operations, propagating any
undefined-behaviour crash. -/
def runStackOps (s : RunState) : List StackOp → Except (Crash × RunState) RunState
  | [] => .ok s
  | .pushOp n :: ops => runStackOps (push s n) ops
  | .popOp :: ops =>
    match pop s with
    | .ok s1 => runStackOps s1 ops
    | .error e => .error e

/-- Oldest saved frame of the stack (the stack stores its newest frame at
the head). -/
def bottomFrame : List Frame → Option Frame
  | [] => none
  | [f] => some f
  | _ :: g :: t => bottomFrame (g :: t)

/-- Inductive invariant of the push and pop discipline: every saved frame
holds a non-null current pointer, the oldest saved frame holds the root,
an empty root means a fresh automaton (no current node, no saved frame),
a null current pointer only occurs on a fresh automaton, and a current
node different from the root always has a saved parent frame. -/
def StackInv (s : RunState) : Prop :=
  (∀ f ∈ s.stack, f.current ≠ none) ∧
  (∀ f, bottomFrame s.stack = some f → f.current = s.root) ∧
  (s.root = none → s.frame.current = none ∧ s.stack = []) ∧
  (s.frame.current = none → s.stack = [] ∧ s.root = none) ∧
  ((s.frame.current ≠ none ∧ s.frame.current ≠ s.root) → s.stack ≠ [])

lemma bottomFrame_cons_cons (f g : Frame) (t : List Frame) :
    bottomFrame (f :: g :: t) = bottomFrame (g :: t) := rfl

lemma bottomFrame_of_ne_nil (l : List Frame) (hl : l ≠ []) :
    ∃ g, bottomFrame l = some g ∧ g ∈ l := by
  induction l with
  | nil => exact absurd rfl hl
  | cons f t ih =>
    cases t with
    | nil => exact ⟨f, rfl, by simp⟩
    | cons g t2 =>
      obtain ⟨g2, hg, hmem⟩ := ih (by simp)
      exact ⟨g2, by rw [bottomFrame_cons_cons]; exact hg, List.mem_cons_of_mem f hmem⟩

/-- The invariant depends only on the stack, the current pointer and the
root, so it transfers between states agreeing on those fields. -/
lemma stackInv_of_eq (s t : RunState) (hstk : t.stack = s.stack)
    (hcur : t.frame.current = s.frame.current) (hroot : t.root = s.root)
    (h : StackInv s) : StackInv t := by
  unfold StackInv at *
  rw [hstk, hcur, hroot]
  exact h

lemma push_eq_of_none (s : RunState) (n : Nat) (hc : s.frame.current = none)
    (hr : s.root = none) :
    push s n = { s with
      frame := ⟨some n, { s.frame.key with valid := false, active := false }⟩,
      root := some n } := by
  simp [push, hc, hr]

lemma push_eq_of_some (s : RunState) (n c r : Nat) (hc : s.frame.current = some c)
    (hr : s.root = some r) :
    push s n = { s with stack := s.frame :: s.stack, frame := ⟨some n, { s.frame.key with valid := false, active := false }⟩ } := by
  simp [push, hc, hr]

lemma push_stackInv (s : RunState) (n : Nat) (h : StackInv s) : StackInv (push s n) := by
  obtain ⟨h1, h2, h3, h4, h5⟩ := h
  cases hc : s.frame.current with
  | none =>
    have hs := (h4 hc).1
    have hr := (h4 hc).2
    rw [push_eq_of_none s n hc hr]
    unfold StackInv
    refine ⟨?_, ?_, ?_, ?_, ?_⟩ <;> simp [hs, bottomFrame]
  | some c =>
    have hrne : s.root ≠ none := fun hr0 => by simp [(h3 hr0).1] at hc
    cases hrr : s.root with
    | none => exact absurd hrr hrne
    | some r =>
      rw [push_eq_of_some s n c r hc hrr]
      unfold StackInv
      refine ⟨?_, ?_, ?_, ?_, ?_⟩
      · intro f hf
        simp only [List.mem_cons] at hf
        rcases hf with hf | hf
        · rw [hf, hc]; simp
        · exact h1 f hf
      · intro f hf
        simp only at hf ⊢
        cases hst : s.stack with
        | nil =>
          rw [hst] at hf
          have hfs : s.frame = f := by
            simpa [bottomFrame] using hf
          have heq : s.frame.current = s.root := by
            by_contra hne
            exact (h5 ⟨by simp [hc], hne⟩) hst
          rw [← hfs, heq]
        | cons g t =>
          rw [hst, bottomFrame_cons_cons] at hf
          exact h2 f (by rw [hst]; exact hf)
      · intro h0; simp [hrr] at h0
      · intro h0; simp at h0
      · intro _; simp

lemma attach_fields (s1 : RunState) (old : Frame) :
    (attach s1 old).frame.current = s1.frame.current ∧
    (attach s1 old).stack = s1.stack ∧ (attach s1 old).root = s1.root := by
  unfold attach
  split
  · simp
  · split <;> simp
  · simp

lemma pop_stackInv (s : RunState) (h : StackInv s) :
    ∃ s1, pop s = .ok s1 ∧ StackInv s1 := by
  obtain ⟨h1, h2, h3, h4, h5⟩ := h
  by_cases hg : s.stack = [] ∧ s.frame.current = none
  · refine ⟨errF s "stack underflow", ?_, ?_⟩
    · unfold pop
      rw [if_pos hg]
    · exact stackInv_of_eq s _ rfl rfl rfl ⟨h1, h2, h3, h4, h5⟩
  · by_cases hcr : s.frame.current = s.root
    · refine ⟨{ s with cdata := "" }, ?_, ?_⟩
      · unfold pop
        rw [if_neg hg, if_pos hcr]
      · exact stackInv_of_eq s _ rfl rfl rfl ⟨h1, h2, h3, h4, h5⟩
    · have hne : s.stack ≠ [] := by
        cases hc : s.frame.current with
        | none => intro h0; exact hg ⟨h0, hc⟩
        | some c => exact h5 ⟨by simp [hc], hcr⟩
      obtain ⟨f, rest, hst⟩ := List.exists_cons_of_ne_nil hne
      have hfc : f.current ≠ none := h1 f (by rw [hst]; exact List.mem_cons_self f rest)
      have hrootne : s.root ≠ none := by
        obtain ⟨g, hbg, hgmem⟩ := bottomFrame_of_ne_nil s.stack hne
        have hgr := h2 g hbg
        have hgc := h1 g hgmem
        rw [hgr] at hgc
        exact hgc
      have hinvrest : StackInv { s with frame := f, stack := rest } := by
        unfold StackInv
        refine ⟨?_, ?_, ?_, ?_, ?_⟩
        · intro g hgm
          exact h1 g (by rw [hst]; exact List.mem_cons_of_mem f hgm)
        · intro g hbg
          simp only at hbg ⊢
          cases hrr : rest with
          | nil => rw [hrr] at hbg; simp [bottomFrame] at hbg
          | cons g2 t =>
            rw [hrr] at hbg
            refine h2 g ?_
            rw [hst, hrr, bottomFrame_cons_cons]
            exact hbg
        · intro h0; exact absurd h0 hrootne
        · intro h0; exact absurd h0 hfc
        · rintro ⟨hgc, hgr⟩ hrest0
          have hbot : bottomFrame s.stack = some f := by
            rw [hst]
            simp only at hrest0
            rw [hrest0]
            rfl
          exact hgr (h2 f hbot)
      refine ⟨{ attach { s with frame := f, stack := rest } s.frame with cdata := "" },
              ?_, ?_⟩
      · unfold pop
        rw [if_neg hg, if_neg hcr]
        rw [hst]
      · obtain ⟨ha1, ha2, ha3⟩ := attach_fields { s with frame := f, stack := rest } s.frame
        exact stackInv_of_eq _ _ (by simpa using ha2) (by simpa using ha1)
          (by simpa using ha3) hinvrest

lemma stackInv_init : StackInv (onBeginParse (initRun none)) := by
  unfold StackInv onBeginParse initRun
  refine ⟨?_, ?_, ?_, ?_, ?_⟩ <;> simp [bottomFrame]

lemma stackInv_runStackOps (ops : List StackOp) :
    ∀ s, StackInv s → ∃ s1, runStackOps s ops = .ok s1 ∧ StackInv s1 := by
  induction ops with
  | nil => exact fun s h => ⟨s, rfl, h⟩
  | cons op ops ih =>
    intro s h
    cases op with
    | pushOp n =>
      obtain ⟨s1, hok, hinv⟩ := ih (push s n) (push_stackInv s n h)
      exact ⟨s1, by simpa [runStackOps] using hok, hinv⟩
    | popOp =>
      obtain ⟨s1, hok, hinv⟩ := pop_stackInv s h
      obtain ⟨s2, h2, hinv2⟩ := ih s1 hinv
      exact ⟨s2, by simp [runStackOps, hok, h2], hinv2⟩

/-- C10: starting from the state onBeginParse installs, every sequence of
push and pop operations runs without ever calling back() on an empty
stack (the run never crashes, so the guarded stack-underflow branch is
the only underflow case), and the resulting state keeps the invariant
that a non-null current node different from the root has a saved parent
frame on the stack. -/
theorem c10_stack_no_underflow (ops : List StackOp) :
    ∃ s, runStackOps (onBeginParse (initRun none)) ops = .ok s ∧
      ((s.frame.current ≠ none ∧ s.frame.current ≠ s.root) → s.stack ≠ []) := by
  obtain ⟨s1, hok, hinv⟩ := stackInv_runStackOps ops _ stackInv_init
  exact ⟨s1, hok, hinv.2.2.2.2⟩
